import Mathlib

/-!
Verification of the xfsm finite-state-machine core (src/src/xfsm.c).

The host dynamic-value system (Espruino JsVar) is modelled by the
inductive type Val: objects are ordered association lists, arrays are
lists, and callables are opaque values invoked through a host oracle of
type Host.  Every host invocation performed by the modelled code is
recorded in a trace of CallRec entries, so that statements of the form
so-and-so is never invoked become provable.  Fixed-size C string
buffers are modelled as unbounded strings (the 64-byte truncation of
state and event names is out of scope), and reference-count
bookkeeping, logging and listener notification are not modelled since
they do not affect the values computed.
-/

namespace Xfsm

/-- Dynamic value, modelling the JsVar variants used by the FSM core.
The closure constructor stands for host-generated closures such as the
per-state matches function; it is never inspected by the core logic. -/
inductive Val : Type where
  | undef : Val
  | null : Val
  | boolV : Bool → Val
  | num : Int → Val
  | str : String → Val
  | arr : List Val → Val
  | obj : List (String × Val) → Val
  | func : Nat → Val
  | closure : String → Val
  deriving Repr

/-- jsvIsString -/
def isStringV : Val → Bool
  | .str _ => true
  | _ => false

/-- jsvIsObject -/
def isObjV : Val → Bool
  | .obj _ => true
  | _ => false

/-- jsvIsArray -/
def isArrV : Val → Bool
  | .arr _ => true
  | _ => false

/-- jsvIsFunction: true for user functions and host-generated closures -/
def isFunctionV : Val → Bool
  | .func _ => true
  | .closure _ => true
  | _ => false

/-- the undefined value, which models the NULL JsVar result of a host
call that returns nothing (a callback without a return statement) and
an undefined-valued child; the C pointer tests if res, if out and if v
guarding assignment writes are tests for this value -/
def isUndef : Val → Bool
  | .undef => true
  | _ => false

/-- generic truthiness coercion of a value, the boundary primitive the
spec describes in section 4.2 step 5: 0, empty string, null, undefined
and false are falsy, everything else truthy -/
def getBool : Val → Bool
  | .undef => false
  | .null => false
  | .boolV b => b
  | .num n => n != 0
  | .str s => s != ""
  | .arr _ => true
  | .obj _ => true
  | .func _ => true
  | .closure _ => true

/-- first-match lookup in an association list (jsvObjectGetChild on the
field list of an object) -/
def objGet : List (String × Val) → String → Option Val
  | [], _ => none
  | (k, v) :: rest, key => if k = key then some v else objGet rest key

/-- jsvObjectGetChild: named-child lookup; only object values have
named children in the modelled fragment -/
def objGetChild : Val → String → Option Val
  | .obj fields, key => objGet fields key
  | _, _ => none

/-- replace the value of an existing key, or append the pair -/
def objSetFields : List (String × Val) → String → Val → List (String × Val)
  | [], key, v => [(key, v)]
  | (k, w) :: rest, key, v =>
      if k = key then (key, v) :: rest else (k, w) :: objSetFields rest key v

/-- jsvObjectSetChild: set or overwrite a named child of an object
value; a no-op on non-objects -/
def objSetChild : Val → String → Val → Val
  | .obj fields, key, v => .obj (objSetFields fields key v)
  | o, _, _ => o

/-- str_from_jsv on a value: the extracted text of a string value, and
the empty buffer for every other kind -/
def strOf : Val → String
  | .str s => s
  | _ => ""

/-- the common C pattern: read an optional child into a buffer that
stays empty unless the child is a string -/
def strField : Option Val → String
  | some (.str s) => s
  | _ => ""

/-- host call-out for two-argument invocations, modelling
jspExecuteFunction fn this 2 (ctx, event): given the callable value,
the context argument and the event argument, the host returns a value -/
abbrev Host := Val → Val → Val → Val

/-- record of one host invocation performed by the modelled code -/
structure CallRec : Type where
  fn : Val
  ctxArg : Val
  evArg : Val
  deriving Repr

/-- xfsm_normalize_event: a bare string s becomes the object with type
s; an object missing a string type field gets type set to the empty
string in place; other kinds are rejected -/
def xfsm_normalize_event : Val → Option Val
  | .str s => some (.obj [("type", .str s)])
  | .obj fields =>
      match objGet fields "type" with
      | some t =>
          if isStringV t then some (.obj fields)
          else some (objSetChild (.obj fields) "type" (.str ""))
      | none => some (objSetChild (.obj fields) "type" (.str ""))
  | _ => none

/-- new_state_obj: build the state object with fields value (when the
name is nonempty), context and actions (when given), changed, and the
host-generated matches closure -/
def new_state_obj (value : String) (ctx : Option Val) (acts : Option Val)
    (changed : Bool) : Val :=
  let st := Val.obj []
  let st := if value = "" then st else objSetChild st "value" (.str value)
  let st := match ctx with
    | some c => objSetChild st "context" c
    | none => st
  let st := match acts with
    | some a => objSetChild st "actions" a
    | none => st
  let st := objSetChild st "changed" (.boolV changed)
  objSetChild st "matches" (.closure "matches")

/-- xfsm_machine_initial_state: look up config, the initial name and
the states map, then build the state object from the entry list of the
initial node when that node exists (the node being absent does not
fail) -/
def xfsm_machine_initial_state (machine : Val) : Option Val :=
  if isObjV machine = false then none else
  match objGetChild machine "config" with
  | none => none
  | some cfg =>
    let initBuf := strField (objGetChild cfg "initial")
    if initBuf = "" then none else
    match objGetChild cfg "states" with
    | none => none
    | some states =>
      if isObjV states = false then none else
      let node := objGetChild states initBuf
      let entryArr : Option Val :=
        match node with
        | some n => if isObjV n then objGetChild n "entry" else none
        | none => none
      let ctx := objGetChild cfg "context"
      some (new_state_obj initBuf ctx entryArr false)

/-- resolve the source state name in xfsm_machine_transition_ex: the
value field of a prior state object, a bare string name, and otherwise
the initial name of the configuration -/
def resolveFrom (cfg : Val) (stateOrValue : Option Val) : String :=
  let fromBuf0 : String :=
    match stateOrValue with
    | some sv => if isObjV sv then strField (objGetChild sv "value") else strOf sv
    | none => ""
  if fromBuf0 = "" then strField (objGetChild cfg "initial") else fromBuf0

/-- resolve the guard-evaluation context in xfsm_machine_transition_ex:
the context of a prior state object when one was given, and otherwise
the context of the configuration -/
def resolveGuardCtx (cfg : Val) (stateOrValue : Option Val) : Option Val :=
  let g0 : Option Val :=
    match stateOrValue with
    | some sv => if isObjV sv then objGetChild sv "context" else none
    | none => none
  match g0 with
  | some c => some c
  | none => objGetChild cfg "context"

/-- the on-entry of a source node for a given event name; the on child
must be an object for the lookup to happen -/
def candsOf (srcNode : Val) (evBuf : String) : Option Val :=
  match objGetChild srcNode "on" with
  | some o => if isObjV o then objGetChild o evBuf else none
  | none => none

/-- evaluate the cond of a candidate: only a function cond is invoked,
with the guard context (an empty object when absent) and the event; its
result is coerced with getBool.  A cond of any other kind, including a
named guard given as a string, is not evaluated and the candidate
passes.  The second component records the host invocations made. -/
def evalCond (host : Host) (guardCtx : Option Val) (eventObj : Val) (c : Val) :
    Bool × List CallRec :=
  match objGetChild c "cond" with
  | none => (true, [])
  | some cond =>
    if isFunctionV cond then
      let gc := guardCtx.getD (Val.obj [])
      (getBool (host cond gc eventObj), [⟨cond, gc, eventObj⟩])
    else (true, [])

/-- an element of an on-entry array as a candidate object: a string s
becomes the object with target s, an object stands for itself, any
other kind is skipped -/
def elToCand : Val → Option Val
  | .str s => some (.obj [("target", .str s)])
  | .obj fields => some (.obj fields)
  | _ => none

/-- first-match scan of an on-entry array: candidates are taken in
declared order and the first one whose cond passes is selected; the
trace collects the guard invocations of the candidates examined -/
def selectCand (host : Host) (guardCtx : Option Val) (eventObj : Val) :
    List Val → Option Val × List CallRec
  | [] => (none, [])
  | el :: rest =>
    match elToCand el with
    | none => selectCand host guardCtx eventObj rest
    | some c =>
      let pr := evalCond host guardCtx eventObj c
      if pr.1 then (some c, pr.2)
      else
        let r := selectCand host guardCtx eventObj rest
        (r.1, pr.2 ++ r.2)

/-- candidate selection over the three forms of an on-entry: a string
shorthand, a single object gated by its cond, and an array scanned
first-match; any other kind yields no candidate -/
def selectCandidate (host : Host) (guardCtx : Option Val) (eventObj : Val) :
    Option Val → Option Val × List CallRec
  | none => (none, [])
  | some (.str s) => (some (.obj [("target", .str s)]), [])
  | some (.obj fields) =>
    let c := Val.obj fields
    let pr := evalCond host guardCtx eventObj c
    (if pr.1 then some c else none, pr.2)
  | some (.arr els) => selectCand host guardCtx eventObj els
  | some _ => (none, [])

/-- the items contributed by one raw action-list child: the elements of
an array, the single value itself otherwise, nothing when absent -/
def actItems : Option Val → List Val
  | none => []
  | some (.arr els) => els
  | some v => [v]

/-- append the items of a raw action-list child to an accumulator -/
def pushActs (acc : List Val) (v : Option Val) : List Val :=
  acc ++ actItems v

/-- build the resulting state object from the selected candidate: the
action list is exit items of the source node, then candidate actions,
then entry items of the target node when a target is present; a
targetless candidate keeps the source value and changed is false -/
def buildFromCand (states : Val) (exitArr : Option Val) (guardCtx : Option Val)
    (fromBuf : String) (cand : Val) : Val :=
  let acts1 := pushActs (pushActs [] exitArr) (objGetChild cand "actions")
  let toBuf := strField (objGetChild cand "target")
  if toBuf = "" then
    new_state_obj fromBuf guardCtx (some (.arr acts1)) false
  else
    let acts2 :=
      match objGetChild states toBuf with
      | some dst => if isObjV dst then pushActs acts1 (objGetChild dst "entry") else acts1
      | none => acts1
    new_state_obj toBuf guardCtx (some (.arr acts2))
      (if fromBuf = toBuf then false else true)

/-- xfsm_machine_transition_ex: compute the next state object from the
machine, an optional previous state or state name, and an object-form
event; the second component is the trace of guard invocations -/
def xfsm_machine_transition_ex (host : Host) (machine : Val)
    (stateOrValue : Option Val) (eventObj : Val) : Option Val × List CallRec :=
  if isObjV machine = false then (none, []) else
  if isObjV eventObj = false then (none, []) else
  match objGetChild machine "config" with
  | none => (none, [])
  | some cfg =>
    match objGetChild cfg "states" with
    | none => (none, [])
    | some states =>
      if isObjV states = false then (none, []) else
      let evBuf := strField (objGetChild eventObj "type")
      if evBuf = "" then (none, []) else
      let fromBuf := resolveFrom cfg stateOrValue
      let guardCtx := resolveGuardCtx cfg stateOrValue
      if fromBuf = "" then (none, []) else
      match objGetChild states fromBuf with
      | none => (none, [])
      | some srcNode =>
        if isObjV srcNode = false then (none, []) else
        let exitArr := objGetChild srcNode "exit"
        let sel := selectCandidate host guardCtx eventObj (candsOf srcNode evBuf)
        match sel.1 with
        | none => (none, sel.2)
        | some cand =>
          (some (buildFromCand states exitArr guardCtx fromBuf cand), sel.2)

/-- named-action table resolution in run_actions_raw, a fallback chain:
service _options actions, then machine _options actions, then config
options actions, then config actions; the first table found wins -/
def resolveActsMap (service : Val) : Option Val :=
  let fromOpts : Option Val :=
    match objGetChild service "_options" with
    | some opts => objGetChild opts "actions"
    | none => none
  match fromOpts with
  | some m => some m
  | none =>
    match objGetChild service "_machine" with
    | none => none
    | some mach =>
      let fromMopts : Option Val :=
        match objGetChild mach "_options" with
        | some mopts => objGetChild mopts "actions"
        | none => none
      match fromMopts with
      | some m => some m
      | none =>
        match objGetChild mach "config" with
        | none => none
        | some cfg =>
          let fromCopt : Option Val :=
            match objGetChild cfg "options" with
            | some copt => objGetChild copt "actions"
            | none => none
          match fromCopt with
          | some m => some m
          | none => objGetChild cfg "actions"

/-- merge a function-form assignment patch into the context: each field
is written in order; fields whose key is the empty string and fields
whose value is undefined (the if k and v guard of the C) are skipped -/
def mergeFields (ctx : Val) : List (String × Val) → Val
  | [] => ctx
  | (k, v) :: rest =>
      mergeFields
        (if k = "" then ctx
         else if isUndef v then ctx
         else objSetChild ctx k v) rest

/-- map-form assignment: for each field in order, a callable value is
invoked with the current context and the event and its result is
stored, any other value is stored as is; fields with an empty key are
skipped entirely, a write whose resolved value is undefined (a NULL
result or an undefined entry, the if res and if out guards of the C)
is dropped keeping any existing key, and later callables see the
writes of earlier fields -/
def applyMapFields (host : Host) (ev : Val) (ctx : Val) :
    List (String × Val) → Val × List CallRec
  | [] => (ctx, [])
  | (k, v) :: rest =>
    if k = "" then applyMapFields host ev ctx rest
    else
      let outTr : Val × List CallRec :=
        if isFunctionV v then (host v ctx ev, [⟨v, ctx, ev⟩]) else (v, [])
      let ctx2 := if isUndef outTr.1 then ctx else objSetChild ctx k outTr.1
      let r := applyMapFields host ev ctx2 rest
      (r.1, outTr.2 ++ r.2)

/-- the payload of an assignment action: the assignment child of an
object action when present, otherwise the action itself; a function is
its own payload and other kinds have none -/
def assignPayload (assignAction : Val) : Option Val :=
  if isObjV assignAction then
    match objGetChild assignAction "assignment" with
    | some p => some p
    | none => some assignAction
  else if isFunctionV assignAction then some assignAction
  else none

/-- apply_assignment: the context is first replaced by a fresh empty
object unless it already is an object; then a function payload is
invoked and an object result is shallow-merged, and an object payload
is treated as a map of keys to values or callables -/
def apply_assignment (host : Host) (ctx : Option Val) (assignAction : Val)
    (eventObj : Option Val) : Option Val × List CallRec :=
  let ctx0 : Val :=
    match ctx with
    | some c => if isObjV c then c else Val.obj []
    | none => Val.obj []
  match assignPayload assignAction with
  | none => (some ctx0, [])
  | some p =>
    if isFunctionV p then
      let ev := eventObj.getD (Val.obj [])
      let res := host p ctx0 ev
      let ctx1 :=
        match res with
        | .obj fields => mergeFields ctx0 fields
        | _ => ctx0
      (some ctx1, [⟨p, ctx0, ev⟩])
    else
      match p with
      | .obj fields =>
        let ev := eventObj.getD (Val.obj [])
        let r := applyMapFields host ev ctx0 fields
        (some r.1, r.2)
      | _ => (some ctx0, [])

/-- object-form action without a callable exec child: the assign family
runs the assignment, a string type is looked up in the resolved table
and invoked when it names a function there, and every remaining case
falls through to the shorthand-assignment branch -/
def runObjAction (host : Host) (actsMap : Option Val) (ctx : Option Val)
    (eventObj : Option Val) (item : Val) : Option Val × List CallRec :=
  match objGetChild item "type" with
  | some t =>
    if isStringV t then
      let tbuf := strOf t
      if tbuf = "xstate.assign" ∨ tbuf = "assign" then
        apply_assignment host ctx item eventObj
      else
        match actsMap with
        | some m =>
          if isObjV m then
            match objGetChild m tbuf with
            | some fn =>
              if isFunctionV fn then
                (ctx, [⟨fn, ctx.getD (Val.obj []), eventObj.getD (Val.obj [])⟩])
              else apply_assignment host ctx item eventObj
            | none => apply_assignment host ctx item eventObj
          else apply_assignment host ctx item eventObj
        | none => apply_assignment host ctx item eventObj
    else apply_assignment host ctx item eventObj
  | none => apply_assignment host ctx item eventObj

/-- one item of a raw action list: a callable is invoked with the
current context (an empty object when absent) and the event; an object
is dispatched through exec, type and the shorthand-assignment branch; a
string is looked up in the resolved table and invoked when it names a
function there, and is a no-op otherwise; other kinds do nothing -/
def runActionItem (host : Host) (actsMap : Option Val) (ctx : Option Val)
    (eventObj : Option Val) (item : Val) : Option Val × List CallRec :=
  if isFunctionV item then
    (ctx, [⟨item, ctx.getD (Val.obj []), eventObj.getD (Val.obj [])⟩])
  else if isObjV item then
    match objGetChild item "exec" with
    | some ex =>
      if isFunctionV ex then
        (ctx, [⟨ex, ctx.getD (Val.obj []), eventObj.getD (Val.obj [])⟩])
      else runObjAction host actsMap ctx eventObj item
    | none => runObjAction host actsMap ctx eventObj item
  else if isStringV item then
    match actsMap with
    | some m =>
      if isObjV m then
        match objGetChild m (strOf item) with
        | some fn =>
          if isFunctionV fn then
            (ctx, [⟨fn, ctx.getD (Val.obj []), eventObj.getD (Val.obj [])⟩])
          else (ctx, [])
        | none => (ctx, [])
      else (ctx, [])
    | none => (ctx, [])
  else (ctx, [])

/-- run a list of action items in order, threading the context through
every item and concatenating the invocation traces -/
def runActsList (host : Host) (actsMap : Option Val) (eventObj : Option Val) :
    Option Val → List Val → Option Val × List CallRec
  | ctx, [] => (ctx, [])
  | ctx, item :: rest =>
    let r1 := runActionItem host actsMap ctx eventObj item
    let r2 := runActsList host actsMap eventObj r1.1 rest
    (r2.1, r1.2 ++ r2.2)

/-- run_actions_raw: a missing or non-array action list does nothing;
otherwise the named-action table is resolved once and the items run in
order against the threaded context.  The from and to name parameters of
the C function are unused there and omitted here. -/
def run_actions_raw (host : Host) (service : Val) (ctx : Option Val)
    (actionsArr : Option Val) (eventObj : Option Val) : Option Val × List CallRec :=
  match actionsArr with
  | some (.arr items) => runActsList host (resolveActsMap service) eventObj ctx items
  | _ => (ctx, [])

/-- xfsm_service_init: bind the machine, seed the service context from
the config context when present, seed the state with the pure initial
state when it exists, and set the status to NotStarted -/
def xfsm_service_init (serviceObj machineObj : Val) : Val :=
  if isObjV serviceObj = false then serviceObj else
  if isObjV machineObj = false then serviceObj else
  let s1 := objSetChild serviceObj "_machine" machineObj
  let s2 :=
    match objGetChild machineObj "config" with
    | some cfg =>
      match objGetChild cfg "context" with
      | some ctx => objSetChild s1 "_context" ctx
      | none => s1
    | none => s1
  let s3 :=
    match xfsm_machine_initial_state machineObj with
    | some st => objSetChild s2 "_state" st
    | none => s2
  objSetChild s3 "_status" (Val.str "NotStarted")

/-- xfsm_service_start: a no-op returning the service unchanged when
already Running; otherwise compute the initial state, run its action
list against the service context with an xstate.init event, persist the
context into the service and the state object, commit state and status.
Listener notification is outside the modelled fragment. -/
def xfsm_service_start (host : Host) (svc : Val) : Option Val × List CallRec :=
  if isObjV svc = false then (none, []) else
  if strField (objGetChild svc "_status") = "Running" then (some svc, []) else
  match objGetChild svc "_machine" with
  | none => (none, [])
  | some m =>
    match xfsm_machine_initial_state m with
    | none => (none, [])
    | some st =>
      let ctx := objGetChild svc "_context"
      let acts := objGetChild st "actions"
      let evtInit := Val.obj [("type", Val.str "xstate.init")]
      let r := run_actions_raw host svc ctx acts (some evtInit)
      let pair :=
        match r.1 with
        | some c => (objSetChild svc "_context" c, objSetChild st "context" c)
        | none => (svc, st)
      let svc2 := objSetChild (objSetChild pair.1 "_state" pair.2) "_status" (Val.str "Running")
      (some svc2, r.2)

/-- result of xfsm_service_send: the updated service object, the value
returned to the caller, and the trace of host invocations -/
structure SendResult : Type where
  svc : Val
  ret : Option Val
  calls : List CallRec
  deriving Repr

/-- xfsm_service_send: a no-op unless the status is Running; normalize
the event, compute the pure transition passing no previous state (the
C code passes the null pointer, so the transition starts from the
configured initial name and context), run the action list against the
service context, persist the context into the service and the new state
object, commit the state and return the new value.  The source name the
C code reads from the stored state is only handed to the unused
from-name parameter of run_actions_raw and has no effect.  Listener
notification is outside the modelled fragment. -/
def xfsm_service_send (host : Host) (svc : Val) (event : Val) : SendResult :=
  if strField (objGetChild svc "_status") = "Running" then
    match objGetChild svc "_machine" with
    | none => ⟨svc, none, []⟩
    | some m =>
      match xfsm_normalize_event event with
      | none => ⟨svc, none, []⟩
      | some evtObj =>
        let tr := xfsm_machine_transition_ex host m none evtObj
        match tr.1 with
        | none => ⟨svc, none, tr.2⟩
        | some next =>
          let acts := objGetChild next "actions"
          let ctx := objGetChild svc "_context"
          let r := run_actions_raw host svc ctx acts (some evtObj)
          let pair :=
            match r.1 with
            | some c => (objSetChild svc "_context" c, objSetChild next "context" c)
            | none => (svc, next)
          let svc2 := objSetChild pair.1 "_state" pair.2
          ⟨svc2, objGetChild pair.2 "value", tr.2 ++ r.2⟩
  else ⟨svc, none, []⟩

/-- Modelled from the spec, section 4.3, function-form assignment as
amended for claim C7: invoke the payload with context and event, and
when the result is an object merge each of its fields into the context
in order, overwriting existing keys, except fields whose key is the
empty string and fields whose value is undefined, which are skipped -/
def specAssignFunctionForm (host : Host) (ctx : Val) (f : Val) (ev : Val) : Val :=
  match host f ctx ev with
  | .obj patch =>
      patch.foldl
        (fun c kv =>
          if kv.1 = "" then c
          else if isUndef kv.2 then c
          else objSetChild c kv.1 kv.2) ctx
  | _ => ctx

/-- Modelled from the spec, section 4.3, map-form assignment as amended
for claim C7: for each field in order, a callable value is invoked with
the current context and the event and its result is stored, any other
value is stored as is; fields whose key is the empty string are
skipped, and a field whose resolved value is undefined (a callable
returning undefined, or an undefined entry) writes nothing, keeping
any existing key -/
def specAssignMapForm (host : Host) (ev : Val) (ctx : Val)
    (entries : List (String × Val)) : Val :=
  entries.foldl
    (fun c kv =>
      if kv.1 = "" then c
      else
        let out := if isFunctionV kv.2 then host kv.2 c ev else kv.2
        if isUndef out then c else objSetChild c kv.1 out)
    ctx

/-- true when the cond of a candidate object is absent or not a
function, so that evaluating it makes no host call -/
def candCondFreeB (c : Val) : Bool :=
  match objGetChild c "cond" with
  | some f => !(isFunctionV f)
  | none => true

/-- true when an on-entry array element produces no guard call -/
def elGuardFree (el : Val) : Bool :=
  match el with
  | .obj _ => candCondFreeB el
  | _ => true

/-- true when an on-entry value produces no guard call whichever
candidate is examined -/
def entryGuardFree : Val → Bool
  | .obj fs => candCondFreeB (.obj fs)
  | .arr els => els.all elGuardFree
  | _ => true

/-- true when no on-entry of a state node can produce a guard call -/
def nodeGuardFree (node : Val) : Bool :=
  match objGetChild node "on" with
  | some (.obj onFs) => onFs.all fun kv => entryGuardFree kv.2
  | _ => true

/-- true when no transition computed on the machine can ever invoke a
guard: every on-entry of every state node is guard free -/
def machineGuardFree (m : Val) : Bool :=
  match objGetChild m "config" with
  | some cfg =>
    match objGetChild cfg "states" with
    | some (.obj stFs) => stFs.all fun kv => nodeGuardFree kv.2
    | _ => true
  | _ => true

/-- guard-freeness of an optional on-entry value -/
def entryGuardFreeOpt : Option Val → Bool
  | none => true
  | some v => entryGuardFree v

/-- the first element of an on-entry array that yields a candidate,
ignoring guards -/
def firstCandOf : List Val → Option Val
  | [] => none
  | el :: rest =>
    match elToCand el with
    | some c => some c
    | none => firstCandOf rest

/-- host-free candidate selection, the value selection takes on
guard-free entries -/
def selectFree : Option Val → Option Val
  | none => none
  | some (.str s) => some (.obj [("target", .str s)])
  | some (.obj fs) => some (.obj fs)
  | some (.arr els) => firstCandOf els
  | some _ => none

/-- the guard calls contributed by one on-entry array element -/
def condTrace (host : Host) (gc : Option Val) (ev : Val) (el : Val) : List CallRec :=
  match elToCand el with
  | none => []
  | some c => (evalCond host gc ev c).2

/-- an on-entry array element that does not match: it either yields no
candidate or its guard evaluates falsy -/
def elNotSelected (host : Host) (gc : Option Val) (ev : Val) (el : Val) : Prop :=
  match elToCand el with
  | none => True
  | some c => (evalCond host gc ev c).1 = false

/-- the candidate objects selection may examine for a given on-entry -/
def candsExamined : Option Val → List Val
  | some (.str s) => [.obj [("target", .str s)]]
  | some (.obj fs) => [.obj fs]
  | some (.arr els) => els.filterMap elToCand
  | _ => []

/-- a host oracle returning undefined from every invocation -/
def nullHost : Host := fun _ _ _ => Val.undef

/-- object-form event with type NEXT -/
def evNEXT : Val := .obj [("type", .str "NEXT")]

/-- object-form event with type E -/
def evE : Val := .obj [("type", .str "E")]

/-- the three-state traffic-light machine of the spec end-to-end test,
without actions: green to yellow to red to green on NEXT -/
def trafficMachine : Val :=
  .obj [("config", .obj [
    ("initial", .str "green"),
    ("states", .obj [
      ("green", .obj [("on", .obj [("NEXT", .str "yellow")])]),
      ("yellow", .obj [("on", .obj [("NEXT", .str "red")])]),
      ("red", .obj [("on", .obj [("NEXT", .str "green")])])])])]

/-- a service bound to the traffic-light machine, as built by
xfsm_service_init -/
def trafficSvc : Val := xfsm_service_init (Val.obj []) trafficMachine

/-- the traffic-light service after xfsm_service_start -/
def trafficRunning : Val := (xfsm_service_start nullHost trafficSvc).1.getD Val.undef

/-- a machine whose only transition is guarded by a named guard given
as the string neverPass -/
def namedGuardMachine : Val :=
  .obj [("config", .obj [
    ("initial", .str "a"),
    ("states", .obj [
      ("a", .obj [("on", .obj [("GO",
        .obj [("target", .str "b"), ("cond", .str "neverPass")])])]),
      ("b", .obj [])])])]

/-- a machine whose initial name does not appear among the states -/
def orphanInitialMachine : Val :=
  .obj [("config", .obj [
    ("initial", .str "ghost"),
    ("states", .obj [("real", .obj [])]),
    ("context", .obj [("k", .num 7)])])]

/-- a one-state machine whose on-entry for E is a given candidate
array, used to exercise first-match selection end to end -/
def onArrMachine (l : List Val) : Val :=
  .obj [("config", .obj [
    ("initial", .str "a"),
    ("states", .obj [("a", .obj [("on", .obj [("E", .arr l)])])])])]

/-- a machine with a targetless transition carrying one action, whose
source state has exit actions, matching the targetless test of the
spec -/
def targetlessMachine : Val :=
  .obj [("config", .obj [
    ("initial", .str "green"),
    ("states", .obj [
      ("green", .obj [
        ("exit", .arr [.func 10]),
        ("on", .obj [("E", .obj [("actions", .arr [.func 11])])])])])])]

/-- a host oracle for the guard-ordering witness: guard 1 and guard 2
answer false, everything else answers true -/
def guardHost : Host := fun f _ _ =>
  match f with
  | .func 1 => Val.boolV false
  | .func 2 => Val.boolV false
  | _ => Val.boolV true

/-- candidate to b guarded by guard 1 -/
def cand1 : Val := .obj [("target", .str "b"), ("cond", .func 1)]

/-- candidate to c guarded by guard 2 -/
def cand2 : Val := .obj [("target", .str "c"), ("cond", .func 2)]

/-- unguarded candidate to z -/
def cand3 : Val := .obj [("target", .str "z")]

/-- the candidate array of the guard-ordering test of the spec -/
def guardCands : List Val := [cand1, cand2, cand3]

/-- the machine exercising the guard-ordering test -/
def guardArrMachine : Val := onArrMachine guardCands

/-- the single state node of guardArrMachine -/
def guardArrNode : Val := .obj [("on", .obj [("E", .arr guardCands)])]

/-- the states map of guardArrMachine -/
def guardArrStates : Val := .obj [("a", guardArrNode)]

/-- the configuration of guardArrMachine -/
def guardArrCfg : Val := .obj [("initial", .str "a"), ("states", guardArrStates)]

/-- an assign action writing 1 to the context key n -/
def mixAssign : Val :=
  .obj [("type", .str "assign"), ("assignment", .obj [("n", .num 1)])]

/-- a machine whose only transition carries an assign action followed
by a plain function action, for the persists-once instrumentation -/
def mixMachine : Val :=
  .obj [("config", .obj [
    ("initial", .str "s0"),
    ("context", .obj [("n", .num 0)]),
    ("states", .obj [
      ("s0", .obj [("on", .obj [("E", .obj [
        ("target", .str "s1"),
        ("actions", .arr [mixAssign, .func 7])])])]),
      ("s1", .obj [])])])]

/-- a running service over mixMachine -/
def mixSvc : Val :=
  .obj [("_machine", mixMachine),
    ("_context", .obj [("n", .num 0)]),
    ("_status", .str "Running")]

/-- the state object the transition of mixMachine on E produces -/
def mixNext : Val :=
  new_state_obj "s1" (some (.obj [("n", .num 0)]))
    (some (.arr [mixAssign, .func 7])) true

/-- a machine whose state a has an on-entry keyed by the empty string -/
def emptyKeyOnMachine : Val :=
  .obj [("config", .obj [
    ("initial", .str "a"),
    ("states", .obj [
      ("a", .obj [("on", .obj [("", .str "b")])]),
      ("b", .obj [])])])]

theorem objGet_objSetFields_self (fs : List (String × Val)) (k : String) (v : Val) :
    objGet (objSetFields fs k v) k = some v := by
  induction fs with
  | nil => simp [objSetFields, objGet]
  | cons head rest ih =>
    obtain ⟨k0, w⟩ := head
    by_cases h : k0 = k
    · simp [objSetFields, objGet, h]
    · simp [objSetFields, objGet, h, ih]

theorem objGet_objSetFields_ne (fs : List (String × Val)) (k k' : String) (v : Val)
    (h : k' ≠ k) : objGet (objSetFields fs k v) k' = objGet fs k' := by
  have h' : ¬ k = k' := fun e => h e.symm
  induction fs with
  | nil => simp [objSetFields, objGet, h']
  | cons head rest ih =>
    obtain ⟨k0, w⟩ := head
    by_cases h0 : k0 = k
    · subst h0
      simp [objSetFields, objGet, h']
    · by_cases h1 : k0 = k' <;> simp [objSetFields, objGet, h, h0, h1, ih]

theorem objGetChild_objSetChild_self (fs : List (String × Val)) (k : String) (v : Val) :
    objGetChild (objSetChild (.obj fs) k v) k = some v := by
  simp [objSetChild, objGetChild, objGet_objSetFields_self]

theorem objGetChild_objSetChild_ne (o : Val) (k k' : String) (v : Val) (h : k' ≠ k) :
    objGetChild (objSetChild o k v) k' = objGetChild o k' := by
  cases o <;> simp [objSetChild, objGetChild]
  exact objGet_objSetFields_ne _ _ _ _ h

theorem objGet_mem (fs : List (String × Val)) (k : String) (v : Val)
    (h : objGet fs k = some v) : (k, v) ∈ fs := by
  induction fs with
  | nil => simp [objGet] at h
  | cons head rest ih =>
    obtain ⟨k0, w⟩ := head
    by_cases h0 : k0 = k
    · subst h0
      simp [objGet] at h
      simp [h]
    · simp [objGet, h0] at h
      exact List.mem_cons_of_mem _ (ih h)

theorem new_state_obj_value (v : String) (ctx acts : Option Val) (ch : Bool)
    (hv : v ≠ "") :
    objGetChild (new_state_obj v ctx acts ch) "value" = some (.str v) := by
  cases ctx <;> cases acts <;>
    simp only [new_state_obj, if_neg hv] <;> rfl

theorem new_state_obj_context (v : String) (ctx acts : Option Val) (ch : Bool) :
    objGetChild (new_state_obj v ctx acts ch) "context" = ctx := by
  by_cases hv : v = "" <;> cases ctx <;> cases acts <;>
    simp only [new_state_obj, if_neg, if_pos, hv] <;> rfl

theorem new_state_obj_actions (v : String) (ctx acts : Option Val) (ch : Bool) :
    objGetChild (new_state_obj v ctx acts ch) "actions" = acts := by
  by_cases hv : v = "" <;> cases ctx <;> cases acts <;>
    simp only [new_state_obj, if_neg, if_pos, hv] <;> rfl

theorem new_state_obj_changed (v : String) (ctx acts : Option Val) (ch : Bool) :
    objGetChild (new_state_obj v ctx acts ch) "changed" = some (.boolV ch) := by
  by_cases hv : v = "" <;> cases ctx <;> cases acts <;>
    simp only [new_state_obj, if_neg, if_pos, hv] <;> rfl

theorem transition_ex_selected (host : Host) (machine cfg states srcNode cand : Val)
    (sv : Option Val) (ev : Val) (tr : List CallRec)
    (hm : isObjV machine = true) (he : isObjV ev = true)
    (hcfg : objGetChild machine "config" = some cfg)
    (hst : objGetChild cfg "states" = some states) (hsto : isObjV states = true)
    (hev : ¬ strField (objGetChild ev "type") = "")
    (hfrom : ¬ resolveFrom cfg sv = "")
    (hsrc : objGetChild states (resolveFrom cfg sv) = some srcNode)
    (hsrco : isObjV srcNode = true)
    (hsel : selectCandidate host (resolveGuardCtx cfg sv) ev
        (candsOf srcNode (strField (objGetChild ev "type"))) = (some cand, tr)) :
    xfsm_machine_transition_ex host machine sv ev =
      (some (buildFromCand states (objGetChild srcNode "exit")
        (resolveGuardCtx cfg sv) (resolveFrom cfg sv) cand), tr) := by
  simp [xfsm_machine_transition_ex, hm, he, hcfg, hst, hsto, hev, hfrom, hsrc, hsrco, hsel]

theorem transition_ex_unselected (host : Host) (machine cfg states srcNode : Val)
    (sv : Option Val) (ev : Val) (tr : List CallRec)
    (hm : isObjV machine = true) (he : isObjV ev = true)
    (hcfg : objGetChild machine "config" = some cfg)
    (hst : objGetChild cfg "states" = some states) (hsto : isObjV states = true)
    (hev : ¬ strField (objGetChild ev "type") = "")
    (hfrom : ¬ resolveFrom cfg sv = "")
    (hsrc : objGetChild states (resolveFrom cfg sv) = some srcNode)
    (hsrco : isObjV srcNode = true)
    (hsel : selectCandidate host (resolveGuardCtx cfg sv) ev
        (candsOf srcNode (strField (objGetChild ev "type"))) = (none, tr)) :
    xfsm_machine_transition_ex host machine sv ev = (none, tr) := by
  simp [xfsm_machine_transition_ex, hm, he, hcfg, hst, hsto, hev, hfrom, hsrc, hsrco, hsel]

theorem mergeFields_eq_foldl (fs : List (String × Val)) (ctx : Val) :
    mergeFields ctx fs =
      fs.foldl
        (fun c kv =>
          if kv.1 = "" then c
          else if isUndef kv.2 then c
          else objSetChild c kv.1 kv.2) ctx := by
  induction fs generalizing ctx with
  | nil => rfl
  | cons head rest ih =>
    obtain ⟨k, v⟩ := head
    simp only [mergeFields, List.foldl_cons]
    exact ih _

theorem applyMapFields_fst (host : Host) (ev : Val) (fs : List (String × Val)) (ctx : Val) :
    (applyMapFields host ev ctx fs).1 = specAssignMapForm host ev ctx fs := by
  induction fs generalizing ctx with
  | nil => rfl
  | cons head rest ih =>
    obtain ⟨k, v⟩ := head
    by_cases hk : k = ""
    · simp [applyMapFields, specAssignMapForm, hk, ih]
    · by_cases hv : isFunctionV v = true
      · by_cases hu : isUndef (host v ctx ev) = true <;>
          simp [applyMapFields, specAssignMapForm, hk, hv, hu, ih]
      · by_cases hu : isUndef v = true <;>
          simp [applyMapFields, specAssignMapForm, hk, hv, hu, ih]

/-- C1: the claim says send computes the transition from the current
committed state of the Running service, so that successive sends walk
the machine along successive states.  The code passes the null pointer
as the previous state, so every send transitions from the configured
initial state: on the traffic-light machine the second send of NEXT
returns yellow again, while the transition computed from the actually
committed state (yellow) would return red. -/
theorem xfsm_c1_send_ignores_committed_state :
    (xfsm_service_send nullHost
        (xfsm_service_send nullHost trafficRunning (.str "NEXT")).svc
        (.str "NEXT")).ret = some (.str "yellow") ∧
    strField (objGetChild ((xfsm_machine_transition_ex nullHost trafficMachine
        (objGetChild (xfsm_service_send nullHost trafficRunning (.str "NEXT")).svc
          "_state")
        evNEXT).1.getD Val.undef) "value") = "red" :=
  ⟨rfl, rfl⟩

/-- C3 counterexample: the claim says that when states of the
definition lacks the initial name, initialState returns the
no-initial-state failure rather than any state object.  On a machine
whose initial name ghost has no state node the code still returns a
full state object with value ghost, the definition context, no actions
and changed false. -/
theorem xfsm_c3_counterexample_missing_initial_node :
    xfsm_machine_initial_state orphanInitialMachine =
      some (Val.obj [("value", .str "ghost"),
        ("context", .obj [("k", .num 7)]),
        ("changed", .boolV false),
        ("matches", .closure "matches")]) :=
  rfl

/-- C3 amended: initialState fails when the machine has no config, no
nonempty string initial name, or no states object; given those, it
returns a StateObject with value the initial name, context the
definition context and changed false, whose actions child is the entry
child of the initial node when that node exists and is absent
otherwise, the initial node being absent notwithstanding. -/
theorem xfsm_c3_initial_state_characterization (machine cfg states : Val)
    (hm : isObjV machine = true)
    (hcfg : objGetChild machine "config" = some cfg)
    (hinit : ¬ strField (objGetChild cfg "initial") = "")
    (hst : objGetChild cfg "states" = some states)
    (hsto : isObjV states = true) :
    ∃ st, xfsm_machine_initial_state machine = some st ∧
      objGetChild st "value" = some (.str (strField (objGetChild cfg "initial"))) ∧
      objGetChild st "context" = objGetChild cfg "context" ∧
      objGetChild st "changed" = some (.boolV false) ∧
      objGetChild st "actions" =
        (match objGetChild states (strField (objGetChild cfg "initial")) with
         | some node => if isObjV node then objGetChild node "entry" else none
         | none => none) := by
  refine ⟨new_state_obj (strField (objGetChild cfg "initial"))
      (objGetChild cfg "context")
      (match objGetChild states (strField (objGetChild cfg "initial")) with
       | some node => if isObjV node then objGetChild node "entry" else none
       | none => none) false, ?_, ?_, ?_, ?_, ?_⟩
  · simp [xfsm_machine_initial_state, hm, hcfg, hinit, hst, hsto]
  · exact new_state_obj_value _ _ _ _ hinit
  · exact new_state_obj_context _ _ _ _
  · exact new_state_obj_changed _ _ _ _
  · exact new_state_obj_actions _ _ _ _

/-- C3 witness: the amended characterization evaluated on the
traffic-light machine, whose initial state green exists and has no
entry actions. -/
theorem xfsm_c3_witness :
    ∃ st, xfsm_machine_initial_state trafficMachine = some st ∧
      objGetChild st "value" =
        some (.str (strField (objGetChild (.obj [
          ("initial", .str "green"),
          ("states", .obj [
            ("green", .obj [("on", .obj [("NEXT", .str "yellow")])]),
            ("yellow", .obj [("on", .obj [("NEXT", .str "red")])]),
            ("red", .obj [("on", .obj [("NEXT", .str "green")])])])]) "initial"))) ∧
      objGetChild st "context" =
        objGetChild (.obj [
          ("initial", .str "green"),
          ("states", .obj [
            ("green", .obj [("on", .obj [("NEXT", .str "yellow")])]),
            ("yellow", .obj [("on", .obj [("NEXT", .str "red")])]),
            ("red", .obj [("on", .obj [("NEXT", .str "green")])])])]) "context" ∧
      objGetChild st "changed" = some (.boolV false) ∧
      objGetChild st "actions" =
        (match objGetChild (.obj [
            ("green", .obj [("on", .obj [("NEXT", .str "yellow")])]),
            ("yellow", .obj [("on", .obj [("NEXT", .str "red")])]),
            ("red", .obj [("on", .obj [("NEXT", .str "green")])])])
            (strField (objGetChild (.obj [
              ("initial", .str "green"),
              ("states", .obj [
                ("green", .obj [("on", .obj [("NEXT", .str "yellow")])]),
                ("yellow", .obj [("on", .obj [("NEXT", .str "red")])]),
                ("red", .obj [("on", .obj [("NEXT", .str "green")])])])]) "initial")) with
         | some node => if isObjV node then objGetChild node "entry" else none
         | none => none) :=
  xfsm_c3_initial_state_characterization trafficMachine _ _ rfl rfl
    (by decide) rfl rfl

/-- C4: the claim says a guard given as a string name is resolved like
a named action and its result decides the candidate.  In the code only
function conds are ever evaluated, so a named guard passes silently:
whatever the host resolves names to, the transition guarded by the
string neverPass is taken and no guard call is recorded. -/
theorem xfsm_c4_named_guard_silently_passes (host : Host) :
    ∃ st, xfsm_machine_transition_ex host namedGuardMachine none
        (.obj [("type", .str "GO")]) = (some st, []) ∧
      objGetChild st "value" = some (.str "b") :=
  ⟨_, rfl, rfl⟩

/-- C5: the claim says an object action whose type is neither assign
nor found in the named-actions table is a no-op leaving the context
unchanged.  In the code such an item falls through to the
shorthand-assignment branch and is merged as an assignment map: on a
service with no action tables, running the single action with type
doStuff writes the key type into the context. -/
theorem xfsm_c5_unknown_typed_action_mutates_context :
    run_actions_raw nullHost (Val.obj []) (some (.obj []))
        (some (.arr [.obj [("type", .str "doStuff")]])) (some evE)
      = (some (.obj [("type", .str "doStuff")]), []) :=
  rfl

/-- C2: for every selected candidate, the action list of the resulting
state object is exactly the source-node exit items, then the candidate
actions, then the target-node entry items included only when a target
is present, in that order; the exit items are included even for a
targetless candidate, and a targetless result keeps the source value
with changed false. -/
theorem xfsm_c2_transition_action_order (host : Host)
    (machine cfg states srcNode cand : Val) (sv : Option Val) (ev : Val)
    (tr : List CallRec)
    (hm : isObjV machine = true) (he : isObjV ev = true)
    (hcfg : objGetChild machine "config" = some cfg)
    (hst : objGetChild cfg "states" = some states) (hsto : isObjV states = true)
    (hev : ¬ strField (objGetChild ev "type") = "")
    (hfrom : ¬ resolveFrom cfg sv = "")
    (hsrc : objGetChild states (resolveFrom cfg sv) = some srcNode)
    (hsrco : isObjV srcNode = true)
    (hsel : selectCandidate host (resolveGuardCtx cfg sv) ev
        (candsOf srcNode (strField (objGetChild ev "type"))) = (some cand, tr)) :
    ∃ st, xfsm_machine_transition_ex host machine sv ev = (some st, tr) ∧
      objGetChild st "actions" = some (.arr (
        actItems (objGetChild srcNode "exit") ++
        actItems (objGetChild cand "actions") ++
        (if strField (objGetChild cand "target") = "" then []
         else
           match objGetChild states (strField (objGetChild cand "target")) with
           | some dst => if isObjV dst then actItems (objGetChild dst "entry") else []
           | none => []))) ∧
      (strField (objGetChild cand "target") = "" →
        objGetChild st "value" = some (.str (resolveFrom cfg sv)) ∧
        objGetChild st "changed" = some (.boolV false)) := by
  refine ⟨buildFromCand states (objGetChild srcNode "exit")
      (resolveGuardCtx cfg sv) (resolveFrom cfg sv) cand,
    transition_ex_selected host machine cfg states srcNode cand sv ev tr
      hm he hcfg hst hsto hev hfrom hsrc hsrco hsel, ?_, ?_⟩
  · by_cases ht : strField (objGetChild cand "target") = ""
    · simp [buildFromCand, ht, pushActs, new_state_obj_actions]
    · cases hdst : objGetChild states (strField (objGetChild cand "target")) with
      | none => simp [buildFromCand, ht, hdst, pushActs, new_state_obj_actions]
      | some dst =>
        by_cases hdo : isObjV dst = true <;>
          simp [buildFromCand, ht, hdst, hdo, pushActs, new_state_obj_actions]
  · intro ht
    refine ⟨?_, ?_⟩
    · simp only [buildFromCand, ht, if_pos]
      exact new_state_obj_value _ _ _ _ hfrom
    · simp only [buildFromCand, ht, if_pos]
      exact new_state_obj_changed _ _ _ _

/-- C2 witness: the targetless machine of the spec test, whose green
state has one exit action and whose on-entry for E carries one action
and no target; the flattened list is the exit action then the
transition action, the value stays green and changed is false. -/
theorem xfsm_c2_witness :
    ∃ st, xfsm_machine_transition_ex nullHost targetlessMachine none evE = (some st, []) ∧
      objGetChild st "actions" = some (.arr (
        actItems (objGetChild (.obj [
          ("exit", .arr [.func 10]),
          ("on", .obj [("E", .obj [("actions", .arr [.func 11])])])]) "exit") ++
        actItems (objGetChild (.obj [("actions", .arr [.func 11])]) "actions") ++
        (if strField (objGetChild (.obj [("actions", .arr [.func 11])]) "target") = ""
         then []
         else
           match objGetChild (.obj [
             ("green", .obj [
               ("exit", .arr [.func 10]),
               ("on", .obj [("E", .obj [("actions", .arr [.func 11])])])])])
             (strField (objGetChild (.obj [("actions", .arr [.func 11])]) "target")) with
           | some dst => if isObjV dst then actItems (objGetChild dst "entry") else []
           | none => []))) ∧
      (strField (objGetChild (.obj [("actions", .arr [.func 11])]) "target") = "" →
        objGetChild st "value" =
          some (.str (resolveFrom (.obj [
            ("initial", .str "green"),
            ("states", .obj [
              ("green", .obj [
                ("exit", .arr [.func 10]),
                ("on", .obj [("E", .obj [("actions", .arr [.func 11])])])])])]) none)) ∧
        objGetChild st "changed" = some (.boolV false)) :=
  xfsm_c2_transition_action_order nullHost targetlessMachine _ _ _ _ none evE []
    rfl rfl rfl rfl rfl (by decide) (by decide) rfl rfl rfl

/-- C7 counterexample: the claim says the map form sets context at
every key of the map to the resolved value.  The code skips keys whose
string form is empty, so assigning the map with single key the empty
string leaves the context without that key and entirely unchanged; and
the code drops a write whose resolved value is undefined, so a map
entry whose callable returns undefined under nullHost leaves the
existing value 5 at key k instead of storing the undefined result. -/
theorem xfsm_c7_counterexample_skipped_writes :
    (apply_assignment nullHost (some (.obj []))
        (.obj [("type", .str "assign"), ("assignment", .obj [("", .num 1)])])
        (some evE)).1 = some (.obj []) ∧
    objGetChild ((apply_assignment nullHost (some (.obj []))
        (.obj [("type", .str "assign"), ("assignment", .obj [("", .num 1)])])
        (some evE)).1.getD Val.undef) "" = none ∧
    (apply_assignment nullHost (some (.obj [("k", .num 5)]))
        (.obj [("type", .str "assign"), ("assignment", .obj [("k", .func 9)])])
        (some evE)).1 = some (.obj [("k", .num 5)]) :=
  ⟨rfl, rfl, rfl⟩

/-- C7 amended: with an object context, apply_assignment realizes the
claimed assignment semantics amended so that keys whose string form is
empty are skipped and so that undefined values are never stored: a
function payload is invoked with context and event and an object
result is shallow-merged overwriting existing keys, skipping
undefined-valued fields, a non-object result changing nothing; a map
payload stores each resolved value, invoking callables on the current
context and the event, at its key, except that a resolved value of
undefined writes nothing and keeps any existing key. -/
theorem xfsm_c7_assignment_forms (host : Host) (ctx a ev p : Val)
    (hctx : isObjV ctx = true) (hp : assignPayload a = some p) :
    (apply_assignment host (some ctx) a (some ev)).1 = some (
      if isFunctionV p = true then specAssignFunctionForm host ctx p ev
      else
        match p with
        | .obj entries => specAssignMapForm host ev ctx entries
        | _ => ctx) := by
  by_cases hf : isFunctionV p = true
  · simp only [apply_assignment, hp, hctx, hf, if_true]
    cases hres : host p ctx ev <;>
      simp [specAssignFunctionForm, hres, mergeFields_eq_foldl]
  · cases p <;> simp_all [apply_assignment, isFunctionV, applyMapFields_fst]

/-- C7 witness: a map-form assignment whose single value is a callable
stored under the key n, evaluated with the guardHost oracle. -/
theorem xfsm_c7_witness :
    (apply_assignment guardHost (some (.obj [("n", .num 0)]))
        (.obj [("type", .str "assign"), ("assignment", .obj [("n", .func 5)])])
        (some evE)).1 = some (
      if isFunctionV (.obj [("n", .func 5)]) = true then
        specAssignFunctionForm guardHost (.obj [("n", .num 0)]) (.obj [("n", .func 5)]) evE
      else
        match (Val.obj [("n", .func 5)]) with
        | .obj entries => specAssignMapForm guardHost evE (.obj [("n", .num 0)]) entries
        | _ => .obj [("n", .num 0)]) :=
  xfsm_c7_assignment_forms guardHost (.obj [("n", .num 0)])
    (.obj [("type", .str "assign"), ("assignment", .obj [("n", .func 5)])])
    evE (.obj [("n", .func 5)]) rfl rfl

theorem selectCand_after_failures (host : Host) (gc : Option Val) (ev : Val)
    (pre rest : List Val) (hpre : ∀ x ∈ pre, elNotSelected host gc ev x) :
    selectCand host gc ev (pre ++ rest) =
      ((selectCand host gc ev rest).1,
       (pre.map (condTrace host gc ev)).flatten ++ (selectCand host gc ev rest).2) := by
  induction pre with
  | nil => simp
  | cons el pre ih =>
    have hpre2 : ∀ x ∈ pre, elNotSelected host gc ev x :=
      fun x hx => hpre x (List.mem_cons_of_mem _ hx)
    cases hc : elToCand el with
    | none =>
      have htr : condTrace host gc ev el = [] := by simp [condTrace, hc]
      simp [selectCand, hc, ih hpre2, htr]
    | some c =>
      have hfail : (evalCond host gc ev c).1 = false := by
        have h2 := hpre el (List.mem_cons_self _ _)
        unfold elNotSelected at h2
        rw [hc] at h2
        exact h2
      have htr : condTrace host gc ev el = (evalCond host gc ev c).2 := by
        simp [condTrace, hc]
      simp [selectCand, hc, hfail, ih hpre2, htr]

theorem selectCand_all_fail (host : Host) (gc : Option Val) (ev : Val)
    (l : List Val) (hl : ∀ x ∈ l, elNotSelected host gc ev x) :
    selectCand host gc ev l = (none, (l.map (condTrace host gc ev)).flatten) := by
  have h := selectCand_after_failures host gc ev l [] hl
  rw [List.append_nil] at h
  simpa [selectCand] using h

/-- C6: when the on-entry is an array, candidates are examined in
declared order: with every element before el failing, the candidate of
el passing, the result is built from that candidate and the guard trace
consists of the failing prefix guards followed by the guard of el, so
guards of later candidates are never invoked; and when every element of
an array fails, the transition is the no-transition signal with exactly
the guards of the whole array invoked. -/
theorem xfsm_c6_ordered_candidates (host : Host)
    (machine cfg states srcNode el c : Val) (sv : Option Val) (ev : Val)
    (pre post : List Val)
    (hm : isObjV machine = true) (he : isObjV ev = true)
    (hcfg : objGetChild machine "config" = some cfg)
    (hst : objGetChild cfg "states" = some states) (hsto : isObjV states = true)
    (hev : ¬ strField (objGetChild ev "type") = "")
    (hfrom : ¬ resolveFrom cfg sv = "")
    (hsrc : objGetChild states (resolveFrom cfg sv) = some srcNode)
    (hsrco : isObjV srcNode = true)
    (hon : candsOf srcNode (strField (objGetChild ev "type")) =
      some (.arr (pre ++ el :: post)))
    (hpre : ∀ x ∈ pre, elNotSelected host (resolveGuardCtx cfg sv) ev x)
    (hel : elToCand el = some c)
    (hpass : (evalCond host (resolveGuardCtx cfg sv) ev c).1 = true) :
    xfsm_machine_transition_ex host machine sv ev =
      (some (buildFromCand states (objGetChild srcNode "exit")
        (resolveGuardCtx cfg sv) (resolveFrom cfg sv) c),
       (pre.map (condTrace host (resolveGuardCtx cfg sv) ev)).flatten ++
         (evalCond host (resolveGuardCtx cfg sv) ev c).2) ∧
    (∀ l, (∀ x ∈ l, elNotSelected host none evE x) →
      xfsm_machine_transition_ex host (onArrMachine l) none evE =
        (none, (l.map (condTrace host none evE)).flatten)) := by
  constructor
  · have hsel : selectCandidate host (resolveGuardCtx cfg sv) ev
        (candsOf srcNode (strField (objGetChild ev "type"))) =
        (some c,
         (pre.map (condTrace host (resolveGuardCtx cfg sv) ev)).flatten ++
           (evalCond host (resolveGuardCtx cfg sv) ev c).2) := by
      rw [hon]
      show selectCand host (resolveGuardCtx cfg sv) ev (pre ++ el :: post) = _
      rw [selectCand_after_failures host _ ev pre (el :: post) hpre]
      simp [selectCand, hel, hpass]
    exact transition_ex_selected host machine cfg states srcNode c sv ev _
      hm he hcfg hst hsto hev hfrom hsrc hsrco hsel
  · intro l hl
    have hselN : selectCandidate host
        (resolveGuardCtx (.obj [("initial", .str "a"),
          ("states", .obj [("a", .obj [("on", .obj [("E", .arr l)])])])]) none) evE
        (candsOf (.obj [("on", .obj [("E", .arr l)])])
          (strField (objGetChild evE "type"))) =
        (none, (l.map (condTrace host none evE)).flatten) := by
      have h1 : candsOf (.obj [("on", .obj [("E", .arr l)])])
          (strField (objGetChild evE "type")) = some (.arr l) := rfl
      have h2 : resolveGuardCtx (.obj [("initial", .str "a"),
          ("states", .obj [("a", .obj [("on", .obj [("E", .arr l)])])])]) none = none := rfl
      rw [h1, h2]
      exact selectCand_all_fail host none evE l hl
    exact transition_ex_unselected host (onArrMachine l)
      (.obj [("initial", .str "a"),
        ("states", .obj [("a", .obj [("on", .obj [("E", .arr l)])])])])
      (.obj [("a", .obj [("on", .obj [("E", .arr l)])])])
      (.obj [("on", .obj [("E", .arr l)])])
      none evE _ rfl rfl rfl rfl rfl (by decide)
      (by show ¬ ("a" : String) = ""; decide) rfl rfl hselN

/-- C6 witness: the three-candidate guard-ordering test of the spec,
with the first two guards answering false under guardHost and the
third candidate unguarded; the third is selected and exactly the two
failing guards are invoked. -/
theorem xfsm_c6_witness :
    xfsm_machine_transition_ex guardHost guardArrMachine none evE =
      (some (buildFromCand guardArrStates (objGetChild guardArrNode "exit")
        (resolveGuardCtx guardArrCfg none) (resolveFrom guardArrCfg none) cand3),
       ([cand1, cand2].map
          (condTrace guardHost (resolveGuardCtx guardArrCfg none) evE)).flatten ++
         (evalCond guardHost (resolveGuardCtx guardArrCfg none) evE cand3).2) :=
  (xfsm_c6_ordered_candidates guardHost guardArrMachine guardArrCfg guardArrStates
    guardArrNode cand3 cand3 none evE [cand1, cand2] []
    rfl rfl rfl rfl rfl (by decide) (by decide) rfl rfl rfl
    (by
      intro x hx
      simp only [List.mem_cons, List.not_mem_nil, or_false] at hx
      rcases hx with rfl | rfl
      · exact (rfl : (false : Bool) = false)
      · exact (rfl : (false : Bool) = false))
    rfl rfl).1

theorem runActsList_append (host : Host) (am e ctx : Option Val) (l1 l2 : List Val) :
    runActsList host am e ctx (l1 ++ l2) =
      ((runActsList host am e (runActsList host am e ctx l1).1 l2).1,
       (runActsList host am e ctx l1).2 ++
         (runActsList host am e (runActsList host am e ctx l1).1 l2).2) := by
  induction l1 generalizing ctx with
  | nil => simp [runActsList]
  | cons item rest ih => simp [runActsList, ih]

theorem apply_assignment_fst_isSome (host : Host) (ctx : Option Val) (a : Val)
    (e : Option Val) : ∃ c, (apply_assignment host ctx a e).1 = some c := by
  unfold apply_assignment
  cases hp : assignPayload a with
  | none => exact ⟨_, rfl⟩
  | some p =>
    by_cases hf : isFunctionV p = true
    · simp [hf]
    · cases p <;> simp [isFunctionV] at hf ⊢

theorem runObjAction_fst_isSome (host : Host) (am : Option Val) (c : Val)
    (e : Option Val) (item : Val) :
    ∃ c', (runObjAction host am (some c) e item).1 = some c' := by
  unfold runObjAction
  cases ht : objGetChild item "type" with
  | none => exact apply_assignment_fst_isSome host (some c) item e
  | some t =>
    by_cases hs : isStringV t = true
    · simp only [hs, if_true]
      by_cases ha : strOf t = "xstate.assign" ∨ strOf t = "assign"
      · simp only [ha, if_true]
        exact apply_assignment_fst_isSome host (some c) item e
      · simp only [ha, if_false]
        cases am with
        | none => exact apply_assignment_fst_isSome host (some c) item e
        | some m =>
          by_cases hmo : isObjV m = true
          · simp only [hmo, if_true]
            cases hfn : objGetChild m (strOf t) with
            | none => exact apply_assignment_fst_isSome host (some c) item e
            | some fn =>
              by_cases hff : isFunctionV fn = true
              · simp [hff]
              · simp only [hff, if_false]
                exact apply_assignment_fst_isSome host (some c) item e
          · simp only [hmo, if_false]
            exact apply_assignment_fst_isSome host (some c) item e
    · simp only [hs, if_false]
      exact apply_assignment_fst_isSome host (some c) item e

theorem runActionItem_fst_isSome (host : Host) (am : Option Val) (c : Val)
    (e : Option Val) (item : Val) :
    ∃ c', (runActionItem host am (some c) e item).1 = some c' := by
  unfold runActionItem
  by_cases h1 : isFunctionV item = true
  · simp [h1]
  · simp only [h1, if_false]
    by_cases h2 : isObjV item = true
    · simp only [h2, if_true]
      cases hex : objGetChild item "exec" with
      | none => exact runObjAction_fst_isSome host am c e item
      | some ex =>
        by_cases hexf : isFunctionV ex = true
        · simp [hexf]
        · simp only [hexf, if_false]
          exact runObjAction_fst_isSome host am c e item
    · simp only [h2, if_false]
      by_cases h3 : isStringV item = true
      · simp only [h3, if_true]
        cases am with
        | none => exact ⟨_, rfl⟩
        | some m =>
          by_cases hmo : isObjV m = true
          · simp only [hmo, if_true]
            cases hfn : objGetChild m (strOf item) with
            | none => exact ⟨_, rfl⟩
            | some fn =>
              by_cases hff : isFunctionV fn = true
              · simp [hff]
              · simp only [hff, if_false]
                exact ⟨_, rfl⟩
          · simp only [hmo, if_false]
            exact ⟨_, rfl⟩
      · simp only [h3, if_false]
        exact ⟨_, rfl⟩

theorem runActsList_fst_isSome (host : Host) (am e : Option Val) (c : Val)
    (l : List Val) : ∃ c', (runActsList host am e (some c) l).1 = some c' := by
  induction l generalizing c with
  | nil => exact ⟨c, rfl⟩
  | cons item rest ih =>
    obtain ⟨c1, h1⟩ := runActionItem_fst_isSome host am c e item
    obtain ⟨c2, h2⟩ := (h1 ▸ ih c1 : ∃ c',
      (runActsList host am e (runActionItem host am (some c) e item).1 rest).1 = some c')
    exact ⟨c2, by simp [runActsList, h2]⟩

theorem run_actions_raw_fst_isSome (host : Host) (svc : Val) (c : Val)
    (actionsArr : Option Val) (e : Option Val) :
    ∃ c', (run_actions_raw host svc (some c) actionsArr e).1 = some c' := by
  unfold run_actions_raw
  cases actionsArr with
  | none => exact ⟨c, rfl⟩
  | some v =>
    cases v <;> first
      | exact ⟨c, rfl⟩
      | exact runActsList_fst_isSome host (resolveActsMap svc) e c _

/-- C8: the action pipeline threads the context in place across the
whole list (running a concatenation equals running the second part on
the context produced by the first), a plain function action after a
prefix is invoked with exactly the context the prefix produced (so it
observes earlier assign patches), and send writes the service context
exactly once, after the full list has run: the committed service is the
original one with the context child set to the final fold of the whole
action list and the state child set to the new state object carrying
that same context. -/
theorem xfsm_c8_context_single_commit (host : Host) (svc m event evt next c0 : Val)
    (hrun : strField (objGetChild svc "_status") = "Running")
    (hm : objGetChild svc "_machine" = some m)
    (hev : xfsm_normalize_event event = some evt)
    (htr : (xfsm_machine_transition_ex host m none evt).1 = some next)
    (hctx : objGetChild svc "_context" = some c0) :
    (∀ (am e ctx : Option Val) (l1 l2 : List Val),
       runActsList host am e ctx (l1 ++ l2) =
         ((runActsList host am e (runActsList host am e ctx l1).1 l2).1,
          (runActsList host am e ctx l1).2 ++
            (runActsList host am e (runActsList host am e ctx l1).1 l2).2)) ∧
    (∀ (am e ctx : Option Val) (l1 : List Val) (f : Val) (l2 : List Val),
       isFunctionV f = true →
       (runActsList host am e ctx (l1 ++ f :: l2)).2 =
         (runActsList host am e ctx l1).2 ++
           ⟨f, (runActsList host am e ctx l1).1.getD (Val.obj []),
             e.getD (Val.obj [])⟩ ::
           (runActsList host am e (runActsList host am e ctx l1).1 l2).2) ∧
    (∃ cfin,
       (run_actions_raw host svc (some c0) (objGetChild next "actions")
         (some evt)).1 = some cfin ∧
       xfsm_service_send host svc event =
         ⟨objSetChild (objSetChild svc "_context" cfin) "_state"
            (objSetChild next "context" cfin),
          objGetChild (objSetChild next "context" cfin) "value",
          (xfsm_machine_transition_ex host m none evt).2 ++
            (run_actions_raw host svc (some c0) (objGetChild next "actions")
              (some evt)).2⟩) := by
  refine ⟨runActsList_append host, ?_, ?_⟩
  · intro am e ctx l1 f l2 hf
    rw [runActsList_append]
    simp [runActsList, runActionItem, hf]
  · obtain ⟨cfin, hc⟩ := run_actions_raw_fst_isSome host svc c0
      (objGetChild next "actions") (some evt)
    refine ⟨cfin, hc, ?_⟩
    simp only [xfsm_service_send, hrun, if_true, hm, hev, htr, hctx, hc]

/-- C8 witness: the instrumentation scenario of the spec on a concrete
running service whose transition carries an assign action followed by a
function action. -/
theorem xfsm_c8_witness :
    ∃ cfin,
      (run_actions_raw guardHost mixSvc (some (.obj [("n", .num 0)]))
        (objGetChild mixNext "actions") (some (.obj [("type", .str "E")]))).1
        = some cfin ∧
      xfsm_service_send guardHost mixSvc (.str "E") =
        ⟨objSetChild (objSetChild mixSvc "_context" cfin) "_state"
           (objSetChild mixNext "context" cfin),
         objGetChild (objSetChild mixNext "context" cfin) "value",
         (xfsm_machine_transition_ex guardHost mixMachine none
           (.obj [("type", .str "E")])).2 ++
           (run_actions_raw guardHost mixSvc (some (.obj [("n", .num 0)]))
             (objGetChild mixNext "actions")
             (some (.obj [("type", .str "E")]))).2⟩ :=
  (xfsm_c8_context_single_commit guardHost mixSvc mixMachine (.str "E")
    (.obj [("type", .str "E")]) mixNext (.obj [("n", .num 0)])
    rfl rfl rfl rfl rfl).2.2

theorem evalCond_condfree (host : Host) (gc : Option Val) (ev : Val) (c : Val)
    (h : candCondFreeB c = true) : evalCond host gc ev c = (true, []) := by
  unfold candCondFreeB at h
  unfold evalCond
  cases hc : objGetChild c "cond" with
  | none => rfl
  | some f =>
    rw [hc] at h
    have hf : isFunctionV f = false := by simpa using h
    simp [hf]

theorem elToCand_condfree (el c : Val) (hc : elToCand el = some c)
    (h : elGuardFree el = true) : candCondFreeB c = true := by
  cases el <;> simp [elToCand] at hc
  case str s =>
    subst hc
    rfl
  case obj fs =>
    subst hc
    simpa [elGuardFree] using h

theorem selectCand_guardfree (host : Host) (gc : Option Val) (ev : Val)
    (els : List Val) (h : ∀ el ∈ els, elGuardFree el = true) :
    selectCand host gc ev els = (firstCandOf els, []) := by
  induction els with
  | nil => rfl
  | cons el rest ih =>
    have h2 : ∀ x ∈ rest, elGuardFree x = true :=
      fun x hx => h x (List.mem_cons_of_mem _ hx)
    cases hc : elToCand el with
    | none => simp [selectCand, firstCandOf, hc, ih h2]
    | some c =>
      have hfree := elToCand_condfree el c hc (h el (List.mem_cons_self _ _))
      simp [selectCand, firstCandOf, hc, evalCond_condfree host gc ev c hfree]

theorem selectCandidate_guardfree (host : Host) (gc : Option Val) (ev : Val)
    (cands : Option Val) (h : entryGuardFreeOpt cands = true) :
    selectCandidate host gc ev cands = (selectFree cands, []) := by
  cases cands with
  | none => rfl
  | some v =>
    cases v with
    | str s => rfl
    | obj fs =>
      have hfree : candCondFreeB (.obj fs) = true := by
        simpa [entryGuardFreeOpt, entryGuardFree] using h
      simp [selectCandidate, selectFree, evalCond_condfree host gc ev _ hfree]
    | arr els =>
      have hall : ∀ el ∈ els, elGuardFree el = true := by
        have h2 : els.all elGuardFree = true := by
          simpa [entryGuardFreeOpt, entryGuardFree] using h
        exact fun el hel => List.all_eq_true.mp h2 el hel
      simp [selectCandidate, selectFree, selectCand_guardfree host gc ev els hall]
    | undef => rfl
    | null => rfl
    | boolV b => rfl
    | num n => rfl
    | func n => rfl
    | closure s => rfl

theorem machineGuardFree_entry (m cfg states srcNode : Val) (fromBuf evBuf : String)
    (hgf : machineGuardFree m = true)
    (hcfg : objGetChild m "config" = some cfg)
    (hst : objGetChild cfg "states" = some states)
    (hsrc : objGetChild states fromBuf = some srcNode) :
    entryGuardFreeOpt (candsOf srcNode evBuf) = true := by
  cases states with
  | obj stFs =>
    have hgf2 : stFs.all (fun kv => nodeGuardFree kv.2) = true := by
      unfold machineGuardFree at hgf
      simp only [hcfg, hst] at hgf
      exact hgf
    have hmem : (fromBuf, srcNode) ∈ stFs :=
      objGet_mem stFs fromBuf srcNode (by simpa [objGetChild] using hsrc)
    have hnode : nodeGuardFree srcNode = true := by
      simpa using List.all_eq_true.mp hgf2 (fromBuf, srcNode) hmem
    unfold nodeGuardFree at hnode
    unfold candsOf
    cases hon : objGetChild srcNode "on" with
    | none => rfl
    | some o =>
      cases o with
      | obj onFs =>
        rw [hon] at hnode
        simp only [isObjV, if_true]
        cases hent : objGet onFs evBuf with
        | none => simp [objGetChild, hent, entryGuardFreeOpt]
        | some ent =>
          have hm2 : (evBuf, ent) ∈ onFs := objGet_mem _ _ _ hent
          have h2 := List.all_eq_true.mp hnode (evBuf, ent) hm2
          simp only [objGetChild, hent, entryGuardFreeOpt]
          simpa using h2
      | undef => simp [isObjV, entryGuardFreeOpt]
      | null => simp [isObjV, entryGuardFreeOpt]
      | boolV b => simp [isObjV, entryGuardFreeOpt]
      | num n => simp [isObjV, entryGuardFreeOpt]
      | str s => simp [isObjV, entryGuardFreeOpt]
      | arr els => simp [isObjV, entryGuardFreeOpt]
      | func n => simp [isObjV, entryGuardFreeOpt]
      | closure s => simp [isObjV, entryGuardFreeOpt]
  | undef => simp [objGetChild] at hsrc
  | null => simp [objGetChild] at hsrc
  | boolV b => simp [objGetChild] at hsrc
  | num n => simp [objGetChild] at hsrc
  | str s => simp [objGetChild] at hsrc
  | arr els => simp [objGetChild] at hsrc
  | func n => simp [objGetChild] at hsrc
  | closure s => simp [objGetChild] at hsrc

theorem transition_ex_guardfree (m : Val) (hgf : machineGuardFree m = true)
    (host host' : Host) (sv : Option Val) (ev : Val) :
    xfsm_machine_transition_ex host m sv ev =
      xfsm_machine_transition_ex host' m sv ev ∧
    (xfsm_machine_transition_ex host m sv ev).2 = [] := by
  unfold xfsm_machine_transition_ex
  by_cases h1 : isObjV m = false
  · simp [h1]
  · simp only [if_neg h1]
    by_cases h2 : isObjV ev = false
    · simp [h2]
    · simp only [if_neg h2]
      cases hcfg : objGetChild m "config" with
      | none => simp [hcfg]
      | some cfg =>
        simp only [hcfg]
        cases hst : objGetChild cfg "states" with
        | none => simp [hst]
        | some states =>
          simp only [hst]
          by_cases h3 : isObjV states = false
          · simp [h3]
          · simp only [if_neg h3]
            by_cases h4 : strField (objGetChild ev "type") = ""
            · simp [h4]
            · simp only [if_neg h4]
              by_cases h5 : resolveFrom cfg sv = ""
              · simp [h5]
              · simp only [if_neg h5]
                cases hsrc : objGetChild states (resolveFrom cfg sv) with
                | none => simp [hsrc]
                | some srcNode =>
                  simp only [hsrc]
                  by_cases h6 : isObjV srcNode = false
                  · simp [h6]
                  · simp only [if_neg h6]
                    have hent := machineGuardFree_entry m cfg states srcNode
                      (resolveFrom cfg sv) (strField (objGetChild ev "type"))
                      hgf hcfg hst hsrc
                    rw [selectCandidate_guardfree host
                        (resolveGuardCtx cfg sv) ev _ hent,
                      selectCandidate_guardfree host'
                        (resolveGuardCtx cfg sv) ev _ hent]
                    cases selectFree
                        (candsOf srcNode (strField (objGetChild ev "type"))) <;>
                      simp

theorem evalCond_calls (host : Host) (gc : Option Val) (ev : Val) (c : Val)
    (r : CallRec) (hr : r ∈ (evalCond host gc ev c).2) :
    objGetChild c "cond" = some r.fn := by
  unfold evalCond at hr
  cases hc : objGetChild c "cond" with
  | none =>
    rw [hc] at hr
    simp at hr
  | some f =>
    rw [hc] at hr
    by_cases hf : isFunctionV f = true
    · simp [hf] at hr
      subst hr
      rfl
    · simp [hf] at hr

theorem selectCand_calls (host : Host) (gc : Option Val) (ev : Val)
    (els : List Val) (r : CallRec) (hr : r ∈ (selectCand host gc ev els).2) :
    ∃ c, c ∈ els.filterMap elToCand ∧ objGetChild c "cond" = some r.fn := by
  induction els with
  | nil => simp [selectCand] at hr
  | cons el rest ih =>
    unfold selectCand at hr
    cases hc : elToCand el with
    | none =>
      rw [hc] at hr
      obtain ⟨c, hcm, hcc⟩ := ih hr
      exact ⟨c, by simp [List.filterMap_cons, hc, hcm], hcc⟩
    | some c0 =>
      rw [hc] at hr
      by_cases hp : (evalCond host gc ev c0).1 = true
      · simp only [hp, if_true] at hr
        exact ⟨c0, by simp [List.filterMap_cons, hc],
          evalCond_calls host gc ev c0 r hr⟩
      · have hp2 : (evalCond host gc ev c0).1 = false :=
          Bool.eq_false_iff.mpr hp
        simp only [hp2, Bool.false_eq_true, if_false, List.mem_append] at hr
        rcases hr with hr | hr
        · exact ⟨c0, by simp [List.filterMap_cons, hc],
            evalCond_calls host gc ev c0 r hr⟩
        · obtain ⟨c, hcm, hcc⟩ := ih hr
          exact ⟨c, by simp [List.filterMap_cons, hc, hcm], hcc⟩

theorem selectCandidate_calls (host : Host) (gc : Option Val) (ev : Val)
    (cands : Option Val) (r : CallRec)
    (hr : r ∈ (selectCandidate host gc ev cands).2) :
    ∃ c, c ∈ candsExamined cands ∧ objGetChild c "cond" = some r.fn := by
  cases cands with
  | none => simp [selectCandidate] at hr
  | some v =>
    cases v with
    | str s => simp [selectCandidate] at hr
    | obj fs =>
      have hr2 : r ∈ (evalCond host gc ev (.obj fs)).2 := by
        simpa [selectCandidate] using hr
      exact ⟨.obj fs, by simp [candsExamined],
        evalCond_calls host gc ev _ r hr2⟩
    | arr els =>
      have hr2 : r ∈ (selectCand host gc ev els).2 := by
        simpa [selectCandidate] using hr
      obtain ⟨c, hcm, hcc⟩ := selectCand_calls host gc ev els r hr2
      exact ⟨c, by simpa [candsExamined] using hcm, hcc⟩
    | undef => simp [selectCandidate] at hr
    | null => simp [selectCandidate] at hr
    | boolV b => simp [selectCandidate] at hr
    | num n => simp [selectCandidate] at hr
    | func n => simp [selectCandidate] at hr
    | closure s => simp [selectCandidate] at hr

/-- C9: the transition computation is pure: on a guard-free machine its
result, trace included, is the same whatever host oracle is supplied
(so repeated calls return equal results and are observation free) and
its invocation trace is empty; and in general every host call recorded
by candidate selection invokes a value sitting in cond position of one
of the candidates examined, so action functions are never invoked.
Mutation is ruled out by construction: the embedding computes a fresh
state object from its arguments and never rewrites the machine, the
previous state or a context. -/
theorem xfsm_c9_transition_pure (m : Val) (hgf : machineGuardFree m = true) :
    (∀ (host host' : Host) (sv : Option Val) (ev : Val),
      xfsm_machine_transition_ex host m sv ev =
        xfsm_machine_transition_ex host' m sv ev) ∧
    (∀ (host : Host) (sv : Option Val) (ev : Val),
      (xfsm_machine_transition_ex host m sv ev).2 = []) ∧
    (∀ (host : Host) (gc : Option Val) (ev : Val) (cands : Option Val) (r : CallRec),
      r ∈ (selectCandidate host gc ev cands).2 →
      ∃ c, c ∈ candsExamined cands ∧ objGetChild c "cond" = some r.fn) :=
  ⟨fun host host' sv ev => (transition_ex_guardfree m hgf host host' sv ev).1,
   fun host sv ev => (transition_ex_guardfree m hgf host host sv ev).2,
   fun host gc ev cands r hr => selectCandidate_calls host gc ev cands r hr⟩

/-- C9 witness: the guard-free traffic-light machine evaluated under
two different host oracles gives identical results with an empty
trace. -/
theorem xfsm_c9_witness :
    xfsm_machine_transition_ex guardHost trafficMachine none evNEXT =
      xfsm_machine_transition_ex nullHost trafficMachine none evNEXT ∧
    (xfsm_machine_transition_ex guardHost trafficMachine none evNEXT).2 = [] :=
  ⟨(xfsm_c9_transition_pure trafficMachine rfl).1 guardHost nullHost none evNEXT,
   (xfsm_c9_transition_pure trafficMachine rfl).2.1 guardHost none evNEXT⟩

theorem transition_none_of_type_empty (host : Host) (m : Val) (sv : Option Val)
    (e : Val) (h : strField (objGetChild e "type") = "") :
    xfsm_machine_transition_ex host m sv e = (none, []) := by
  unfold xfsm_machine_transition_ex
  by_cases h1 : isObjV m = false
  · simp [h1]
  · simp only [if_neg h1]
    by_cases h2 : isObjV e = false
    · simp [h2]
    · simp only [if_neg h2]
      cases hcfg : objGetChild m "config" with
      | none => simp [hcfg]
      | some cfg =>
        simp only [hcfg]
        cases hst : objGetChild cfg "states" with
        | none => simp [hst]
        | some states =>
          simp only [hst]
          by_cases h3 : isObjV states = false
          · simp [h3]
          · simp [if_neg h3, h]

/-- C10: the transition computation returns the no-transition signal,
with no host call, whenever the type field of the event object is
missing, not a string, or the empty string — whatever the machine, even
one whose on-map has an entry keyed by the empty string; and since
normalization rewrites an object event lacking a string type to the
type the empty string, such a normalized event can never trigger any
transition. -/
theorem xfsm_c10_bad_event_type (host : Host) (m : Val) (sv : Option Val) (e : Val)
    (h : objGetChild e "type" = none ∨
      (∃ t, objGetChild e "type" = some t ∧ isStringV t = false) ∨
      objGetChild e "type" = some (.str "")) :
    xfsm_machine_transition_ex host m sv e = (none, []) ∧
    (∀ fields : List (String × Val),
      (objGet fields "type" = none ∨
        (∃ t, objGet fields "type" = some t ∧ isStringV t = false)) →
      ∃ e2, xfsm_normalize_event (.obj fields) = some e2 ∧
        objGetChild e2 "type" = some (.str "") ∧
        ∀ (host2 : Host) (m2 : Val) (sv2 : Option Val),
          xfsm_machine_transition_ex host2 m2 sv2 e2 = (none, [])) := by
  constructor
  · apply transition_none_of_type_empty
    rcases h with h | ⟨t, ht, hts⟩ | h
    · simp [h, strField]
    · rw [ht]
      cases t <;> simp [strField, isStringV] at hts ⊢
    · simp [h, strField]
  · intro fields hf
    refine ⟨objSetChild (.obj fields) "type" (.str ""), ?_, ?_, ?_⟩
    · rcases hf with hf | ⟨t, ht, hts⟩
      · simp [xfsm_normalize_event, hf]
      · simp [xfsm_normalize_event, ht, hts]
    · exact objGetChild_objSetChild_self fields "type" (.str "")
    · intro host2 m2 sv2
      apply transition_none_of_type_empty
      rw [objGetChild_objSetChild_self fields "type" (.str "")]
      rfl

/-- C10 witness: an object event whose type field is absent, sent
against a machine that does carry an on-entry keyed by the empty
string, produces no transition; and normalization of that event yields
type the empty string and still no transition. -/
theorem xfsm_c10_witness :
    xfsm_machine_transition_ex nullHost emptyKeyOnMachine none
      (.obj [("data", .num 5)]) = (none, []) ∧
    (∀ fields : List (String × Val),
      (objGet fields "type" = none ∨
        (∃ t, objGet fields "type" = some t ∧ isStringV t = false)) →
      ∃ e2, xfsm_normalize_event (.obj fields) = some e2 ∧
        objGetChild e2 "type" = some (.str "") ∧
        ∀ (host2 : Host) (m2 : Val) (sv2 : Option Val),
          xfsm_machine_transition_ex host2 m2 sv2 e2 = (none, [])) :=
  xfsm_c10_bad_event_type nullHost emptyKeyOnMachine none
    (.obj [("data", .num 5)]) (Or.inl rfl)

end Xfsm
